import Mathlib

/-!
Shallow embedding of the two monitoring scripts of this repository:

* `src/pastebinkeywordcrawler/pastein.py` (class `PastebinCrawler`)
* `src/telegram/program.py` (class `TelegramOnionExtractor`)

Texts are modelled as `List Char`; file contents as values held in explicit
state records; fallible steps (network fetches, file reads) as `Option` /
explicit failure flags.  Machine-level concerns (timestamps, JSON
serialization of records, logging) are not observable by any claim and a
written record line is represented by the fields the claims talk about.
-/

/- ===================== Python string/number primitives ===================== -/

/-- ASCII decimal digit test: models membership in the characters accepted by
Python `int()` for a digit position. -/
def isDig (c : Char) : Bool := decide (48 ≤ c.toNat ∧ c.toNat ≤ 57)

/-- ASCII whitespace, as stripped by Python `str.strip()` (the exotic Unicode
whitespace characters also stripped by Python are not modelled; no checkpoint
content produced by this program contains them). -/
def isPySpace (c : Char) : Bool := decide (c.toNat = 32 ∨ (9 ≤ c.toNat ∧ c.toNat ≤ 13))

/-- Python `str.strip()`: drop whitespace from both ends. -/
def pyStrip (l : List Char) : List Char :=
  ((l.dropWhile isPySpace).reverse.dropWhile isPySpace).reverse

/-- Numeric value of a digit string, most significant first. -/
def digitsVal (l : List Char) : Nat :=
  l.foldl (fun a c => 10 * a + (c.toNat - 48)) 0

/-- Nonempty all-digit string. -/
def allDigits (l : List Char) : Bool := !l.isEmpty && l.all isDig

/-- Python `int(s)` on an already stripped string: optional sign followed by a
nonempty digit run; anything else raises, modelled as `none`.  (Python
additionally accepts underscore group separators and non-ASCII digits; the
checkpoint writer never produces those and no claim depends on them.) -/
def pyInt (l : List Char) : Option Int :=
  match l with
  | [] => none
  | c :: r =>
    if c = '-' then (if allDigits r then some (-((digitsVal r : Nat) : Int)) else none)
    else if c = '+' then (if allDigits r then some ((digitsVal r : Nat) : Int) else none)
    else if allDigits (c :: r) then some ((digitsVal (c :: r) : Nat) : Int) else none

/-- Digit character for a value below 10. -/
def digitChar : Nat → Char
  | 0 => '0' | 1 => '1' | 2 => '2' | 3 => '3' | 4 => '4'
  | 5 => '5' | 6 => '6' | 7 => '7' | 8 => '8' | _ => '9'

/-- Decimal digits of a natural number, fuel-structured so the kernel can
evaluate it (`fuel > n` suffices). -/
def pyNatDigitsAux : Nat → Nat → List Char
  | 0, _ => []
  | fuel + 1, n =>
    if n < 10 then [digitChar n]
    else pyNatDigitsAux fuel (n / 10) ++ [digitChar (n % 10)]

/-- Python `str(n)` for a natural number. -/
def pyStrOfNat (n : Nat) : List Char := pyNatDigitsAux (n + 1) n

/-- Python `str(n)` for an integer: canonical decimal, `-` prefix when
negative. -/
def pyStr (n : Int) : List Char :=
  if n < 0 then '-' :: pyStrOfNat n.natAbs else pyStrOfNat n.natAbs

/- ===================== Checkpoint file (src/telegram/program.py) ===================== -/

/-- State of the checkpoint file `last_message_id.txt`: absent, present but
unreadable (`open`/`read` raises), or present with the given content. -/
inductive FileState where
  | absent
  | unreadable
  | content (s : List Char)
deriving DecidableEq

/-- Model of `TelegramOnionExtractor.get_last_message_id`
(src/telegram/program.py lines 52-61): if the file exists, read it, strip and
parse as `int`; an absent file returns 0 and any exception (unreadable file,
unparsable content) is caught and also returns 0. -/
def get_last_message_id : FileState → Int
  | FileState.absent => 0
  | FileState.unreadable => 0
  | FileState.content s => (pyInt (pyStrip s)).getD 0

/-- Model of `TelegramOnionExtractor.save_last_message_id`
(src/telegram/program.py lines 63-70): `open(path, 'w')` then
`write(str(message_id))`; the resulting file content is `str(message_id)`. -/
def save_last_message_id (message_id : Int) : FileState :=
  FileState.content (pyStr message_id)

/-- On-disk states of the checkpoint file visible during
`save_last_message_id`: `open(path, 'w')` first truncates the file to empty,
then the `write` fills it.  A crash between the two primitive steps leaves the
first state on disk. -/
def save_last_message_id_steps (message_id : Int) : List FileState :=
  [FileState.content [], FileState.content (pyStr message_id)]

/- ===================== Keyword matcher (src/pastebinkeywordcrawler/pastein.py) ===================== -/

/-- Literal prefix test on character lists (exact, case-sensitive): `true` iff
`pat` leads `s`.  Models matching the `re.escape`d literal at one position. -/
def leadsWith : List Char → List Char → Bool
  | [], _ => true
  | _ :: _, [] => false
  | p :: ps, c :: cs => p == c && leadsWith ps cs

/-- Python substring operator `needle in hay`. -/
def strContains (hay needle : List Char) : Bool :=
  (List.range (hay.length + 1)).any (fun i => leadsWith needle (hay.drop i))

/-- Word-char test of an optional character (out-of-text positions count as
non-word for `\b`). -/
def wordOpt (isW : Char → Bool) : Option Char → Bool
  | none => false
  | some c => isW c

/-- Model of `re.search(r'\b' + re.escape(kw) + r'\b', text)` as a Bool:
the escaped keyword is a literal, so the pattern matches iff the literal
occurs at some position with a word boundary on each side.  The word-char
predicate `isW` is a parameter: the theorems below hold for every choice, so
they are insensitive to the exact Unicode `\w` class Python uses. -/
def reSearchWB (isW : Char → Bool) (pat text : List Char) : Bool :=
  (List.range (text.length + 1)).any (fun i =>
    leadsWith pat (text.drop i)
    && (wordOpt isW (if i = 0 then none else text.get? (i - 1))
          != wordOpt isW (text.get? i))
    && (wordOpt isW (if i + pat.length = 0 then none else text.get? (i + pat.length - 1))
          != wordOpt isW (text.get? (i + pat.length))))

/-- Python's `\w` for ASCII text: letters, digits, underscore. -/
def pyWordChar (c : Char) : Bool := c.isAlphanum || c = '_'

/-- ASCII `str.lower()`, the concrete instance of the `lower` parameter used
at concrete inputs (all concrete inputs in this file are ASCII, where it
agrees with Python). -/
def asciiLower (l : List Char) : List Char := l.map Char.toLower

/-- Model of `PastebinCrawler.check_keywords`
(src/pastebinkeywordcrawler/pastein.py lines 95-111).  `content` is the
Python argument (`none` models `None`); a falsy content (None or empty)
returns `[]`.  Otherwise each keyword is kept when the word-boundary regex on
its lowered escaped form fires or its lowered form is a substring of the
lowered content.  The case-lowering function `lower` and word-char class
`isW` are parameters (see `reSearchWB`, `asciiLower`). -/
def check_keywords (isW : Char → Bool) (lower : List Char → List Char)
    (keywords : List (List Char)) (content : Option (List Char)) : List (List Char) :=
  match content with
  | none => []
  | some c =>
    if c = [] then []
    else
      let content_lower := lower c
      keywords.filter (fun kw =>
        reSearchWB isW (lower kw) content_lower || strContains content_lower (lower kw))

/- ===================== Pastebin pipeline (src/pastebinkeywordcrawler/pastein.py) ===================== -/

/-- A candidate paste: its archive id and the body returned by
`fetch_paste_content` (`none` models a fetch failure, which that function
turns into `None`). -/
structure Paste where
  id : List Char
  content : Option (List Char)
deriving DecidableEq

/-- A line of `keyword_matches.jsonl`, reduced to the fields claims are about
(timestamp, url and context strings are derived data not modelled). -/
structure PasteResult where
  paste_id : List Char
  keywords_found : List (List Char)
deriving DecidableEq

/-- Model of `PastebinCrawler.process_paste` (pastein.py lines 113-142):
falsy content (failed fetch or empty body) yields no record; otherwise a
record is built exactly when `check_keywords` found something. -/
def process_paste (isW : Char → Bool) (lower : List Char → List Char)
    (keywords : List (List Char)) (p : Paste) : Option PasteResult :=
  match p.content with
  | none => none
  | some c =>
    if c = [] then none
    else
      let found := check_keywords isW lower keywords (some c)
      if found = [] then none else some ⟨p.id, found⟩

/-- Model of `PastebinCrawler.save_result` (pastein.py lines 144-150): a falsy
(absent) result is ignored, otherwise one line is appended to the output
file. -/
def save_result (out : List PasteResult) (r : Option PasteResult) : List PasteResult :=
  match r with
  | none => out
  | some x => out ++ [x]

/-- Model of `PastebinCrawler.run` (pastein.py lines 152-176) acting on the
output-file content.  `pastes` is the listing produced by
`get_archive_paste_ids` together with each candidate's fetch outcome; that
listing is `[]` both when the archive page request failed (the except branch
returns `[]`) and when no ids were found, and then `run` returns before
touching the file.  Otherwise the output file is first truncated
(`open(self.output_file, 'w').close()`), every paste is processed, and each
truthy result is appended via `save_result`. -/
def pastebin_run (isW : Char → Bool) (lower : List Char → List Char)
    (keywords : List (List Char)) (pastes : List Paste)
    (out : List PasteResult) : List PasteResult :=
  if pastes = [] then out
  else
    let results := pastes.map (process_paste isW lower keywords)
    results.foldl save_result []

/- ===================== Onion-link regex (src/telegram/program.py lines 41-44, 72-88) ===================== -/

/-- Character class `[a-zA-Z0-9\-\.]` of the host capture group. -/
def isHostChar (c : Char) : Bool := c.isAlpha || c.isDigit || c = '-' || c = '.'

/-- Character class `[a-zA-Z0-9\-\.\/\?\=\&\%]` of the path capture group. -/
def isPathChar (c : Char) : Bool :=
  c.isAlpha || c.isDigit || c = '-' || c = '.' || c = '/' || c = '?' || c = '=' || c = '&' || c = '%'

/-- Literal `.onion` of the pattern (and of the reconstruction in
`extract_onion_links`, which appends it in lowercase). -/
def onionLit : List Char := ['.', 'o', 'n', 'i', 'o', 'n']

/-- Literal default protocol `http://` used when group 1 did not match. -/
def httpLit : List Char := ['h', 't', 't', 'p', ':', '/', '/']

/-- Literal `https://`. -/
def httpsLit : List Char := ['h', 't', 't', 'p', 's', ':', '/', '/']

/-- Case-insensitive literal prefix test (`re.IGNORECASE` on the pattern's
literal parts; ASCII folding, which is what the literals need). -/
def ciLeadsWith : List Char → List Char → Bool
  | [], _ => true
  | _ :: _, [] => false
  | p :: ps, c :: cs => p.toLower == c.toLower && ciLeadsWith ps cs

/-- Groups captured by one match of `onion_pattern`: protocol (empty when the
optional group did not participate), host (without `.onion`), path (empty
when absent), exactly as `re.findall` reports them. -/
structure OnionGroups where
  proto : List Char
  host : List Char
  path : List Char
deriving DecidableEq

/-- Attempt the `([a-zA-Z0-9\-\.]+)\.onion(\/[...]*)?` tail of the pattern at
the start of `rest`, `cap` being the already-captured protocol group.  The
`+` is greedy with backtracking: the longest host run whose remainder starts
with `.onion` wins; the optional path group is greedy (taken whenever a `/`
follows).  Returns the captured groups and the unconsumed remainder. -/
def tryHostFrom (cap rest : List Char) : Option (OnionGroups × List Char) :=
  (((List.range (rest.takeWhile isHostChar).length).reverse.map (· + 1))).findSome?
    (fun k =>
      if ciLeadsWith onionLit (rest.drop k) then
        let afterOnion := rest.drop (k + 6)
        let path :=
          match afterOnion.head? with
          | some '/' => afterOnion.takeWhile isPathChar
          | _ => []
        some (⟨cap, rest.take k, path⟩, rest.drop (k + 6 + path.length))
      else none)

/-- One attempt of the whole pattern
`(https?:\/\/)?([a-zA-Z0-9\-\.]+)\.onion(\/[...]*)?` anchored at the start of
`s`, with the backtracking order of the Python engine: protocol group with
`https://`, then `http://`, then absent. -/
def matchAtPos (s : List Char) : Option (OnionGroups × List Char) :=
  ((if ciLeadsWith httpsLit s then [(s.take 8, s.drop 8)] else [])
      ++ (if ciLeadsWith httpLit s then [(s.take 7, s.drop 7)] else [])
      ++ [(([] : List Char), s)]).findSome?
    (fun a => tryHostFrom a.1 a.2)

/-- Scanning loop of `re.findall`: try the pattern at each position, emit the
groups of each non-overlapping match and resume after it.  Every match
consumes at least `.onion`, so `fuel = length` suffices. -/
def findAllAux : Nat → List Char → List OnionGroups
  | 0, _ => []
  | _, [] => []
  | fuel + 1, c :: cs =>
    match matchAtPos (c :: cs) with
    | some (g, rest) => g :: findAllAux fuel rest
    | none => findAllAux fuel cs

/-- `self.onion_pattern.findall(text)` (src/telegram/program.py line 77). -/
def onion_findall (s : List Char) : List OnionGroups :=
  findAllAux s.length s

/-- Link reconstruction of `extract_onion_links` (program.py lines 80-86):
`protocol = match[0] if match[0] else 'http://'`, `domain = match[1] +
'.onion'`, `path = match[2] if match[2] else ''`. -/
def buildLink (g : OnionGroups) : List Char :=
  (if g.proto = [] then httpLit else g.proto) ++ g.host ++ onionLit ++ g.path

/-- Model of `TelegramOnionExtractor.extract_onion_links` (program.py lines
72-88): falsy text yields `[]`, otherwise every `findall` match is rebuilt
into a full link. -/
def extract_onion_links : Option (List Char) → List (List Char)
  | none => []
  | some t => if t = [] then [] else (onion_findall t).map buildLink

/- ===================== Telegram pipeline (src/telegram/program.py) ===================== -/

/-- A message yielded by `iter_messages`: its id, its `text` attribute
(`none` models `None`), and whether processing this message raises (the
per-message `except` on lines 149-151 absorbs it after the id bookkeeping). -/
structure Msg where
  id : Int
  text : Option (List Char)
  fails : Bool
deriving DecidableEq

/-- Persistent state the telegram run touches: the checkpoint file and the
lines of `onion_links.jsonl` (each line reduced to the url it records; the
timestamp/context fields are derived data not modelled). -/
structure RunState where
  checkpoint : FileState
  output : List (List Char)
deriving DecidableEq

/-- Model of `TelegramOnionExtractor.save_link` (program.py lines 90-105):
append one line for the url to the output file. -/
def save_link (out : List (List Char)) (url : List Char) : List (List Char) :=
  out ++ [url]

/-- Loop body of `process_messages` (program.py lines 130-151) over the
running pair (highest_id, output lines): skip ids at or below the stored
checkpoint, raise the high-water mark, then — unless this message's
processing raises — extract links from a truthy text and save each. -/
def tgStep (last_id : Int) (acc : Int × List (List Char)) (m : Msg) :
    Int × List (List Char) :=
  if m.id ≤ last_id then acc
  else
    let h := if acc.1 < m.id then m.id else acc.1
    if m.fails then (h, acc.2)
    else
      match m.text with
      | none => (h, acc.2)
      | some t =>
        if t = [] then (h, acc.2)
        else (h, (extract_onion_links (some t)).foldl save_link acc.2)

/-- Model of `TelegramOnionExtractor.process_messages` (program.py lines
107-160).  `channelFound` is whether `get_entity` succeeded and returned a
truthy channel (a failure is caught by the outer `except`, a falsy channel
returns early; both leave the state untouched).  `msgs` is the sequence the
message iterator yields, and `iterFails` says the iterator itself raised
after yielding them — the outer `except` then catches it, so the links saved
so far persist but the checkpoint write on lines 154-155 is skipped.  When
the stored checkpoint is 0 the output file is truncated before iterating
(lines 126-127); the checkpoint file is rewritten only when the new high-water
mark strictly exceeds the stored one (line 154). -/
def process_messages (channelFound iterFails : Bool) (msgs : List Msg)
    (st : RunState) : RunState :=
  if channelFound then
    let last_id := get_last_message_id st.checkpoint
    let out0 := if last_id = 0 then [] else st.output
    let r := msgs.foldl (tgStep last_id) (last_id, out0)
    if iterFails then ⟨st.checkpoint, r.2⟩
    else if last_id < r.1 then ⟨save_last_message_id r.1, r.2⟩
    else ⟨st.checkpoint, r.2⟩
  else st

/-- Inputs of one telegram run, for stating multi-run properties. -/
structure RunInput where
  channelFound : Bool
  iterFails : Bool
  msgs : List Msg

/-- A sequence of telegram runs, threaded through the persistent state. -/
def runSeq (runs : List RunInput) (st : RunState) : RunState :=
  runs.foldl (fun s i => process_messages i.channelFound i.iterFails i.msgs s) st

/- ===================== Helper lemmas: decimal round-trip ===================== -/

lemma digitChar_spec (m : Nat) (h : m < 10) :
    isDig (digitChar m) = true ∧ (digitChar m).toNat - 48 = m := by
  interval_cases m <;> exact ⟨by decide, by decide⟩

lemma pyNatDigitsAux_spec : ∀ (fuel n : Nat), n < fuel →
    pyNatDigitsAux fuel n ≠ [] ∧ (∀ c ∈ pyNatDigitsAux fuel n, isDig c = true) ∧
      digitsVal (pyNatDigitsAux fuel n) = n := by
  intro fuel
  induction fuel with
  | zero => intro n h; omega
  | succ f ih =>
    intro n h
    by_cases h10 : n < 10
    · simp only [pyNatDigitsAux, if_pos h10]
      refine ⟨by simp, ?_, ?_⟩
      · intro c hc
        rw [List.mem_singleton] at hc
        subst hc
        exact (digitChar_spec n h10).1
      · have := (digitChar_spec n h10).2
        simp only [digitsVal, List.foldl]
        omega
    · have hdiv : n / 10 < f := by omega
      simp only [pyNatDigitsAux, if_neg h10]
      obtain ⟨hne, hdig, hval⟩ := ih (n / 10) hdiv
      refine ⟨by simp, ?_, ?_⟩
      · intro c hc
        rcases List.mem_append.1 hc with hc | hc
        · exact hdig c hc
        · rw [List.mem_singleton] at hc
          subst hc
          exact (digitChar_spec (n % 10) (by omega)).1
      · have hd := (digitChar_spec (n % 10) (by omega)).2
        simp only [digitsVal, List.foldl_append, List.foldl] at hval ⊢
        omega

lemma isDig_not_space (c : Char) (h : isDig c = true) : isPySpace c = false := by
  simp only [isDig, decide_eq_true_eq] at h
  simp only [isPySpace, decide_eq_false_iff_not]
  omega

lemma isDig_ne_sign (c : Char) (h : isDig c = true) : c ≠ '-' ∧ c ≠ '+' := by
  constructor <;> intro hc <;> subst hc <;> simp [isDig] at h

lemma dropWhile_all_false {α : Type} (p : α → Bool) (l : List α)
    (h : ∀ a ∈ l, p a = false) : l.dropWhile p = l := by
  cases l with
  | nil => rfl
  | cons a l => simp [List.dropWhile_cons, h a (List.mem_cons_self a l)]

lemma pyStrip_of_no_space (l : List Char) (h : ∀ c ∈ l, isPySpace c = false) :
    pyStrip l = l := by
  rw [pyStrip, dropWhile_all_false _ l h,
    dropWhile_all_false _ l.reverse (fun c hc => h c (List.mem_reverse.1 hc)),
    List.reverse_reverse]

lemma pyInt_of_digits (l : List Char) (h1 : l ≠ []) (h2 : ∀ c ∈ l, isDig c = true) :
    pyInt l = some ((digitsVal l : Nat) : Int) := by
  cases l with
  | nil => exact absurd rfl h1
  | cons c r =>
    have hc := h2 c (List.mem_cons_self c r)
    obtain ⟨hm, hp⟩ := isDig_ne_sign c hc
    have hall : allDigits (c :: r) = true := by
      simp only [allDigits, List.isEmpty_cons, Bool.not_false, Bool.true_and,
        List.all_eq_true]
      exact h2
    rw [pyInt, if_neg hm, if_neg hp, if_pos hall]

lemma pyStr_digits (n : Int) :
    (∀ c ∈ pyStr n, isPySpace c = false) ∧ pyInt (pyStr n) = some n := by
  obtain ⟨hne, hdig, hval⟩ :=
    pyNatDigitsAux_spec (n.natAbs + 1) n.natAbs (Nat.lt_succ_self _)
  rw [← pyStrOfNat] at hne hdig hval
  by_cases hneg : n < 0
  · constructor
    · intro c hc
      rw [pyStr, if_pos hneg, List.mem_cons] at hc
      rcases hc with hc | hc
      · subst hc; decide
      · exact isDig_not_space c (hdig c hc)
    · rw [pyStr, if_pos hneg, pyInt, if_pos rfl]
      have hall : allDigits (pyStrOfNat n.natAbs) = true := by
        cases hvl : pyStrOfNat n.natAbs with
        | nil => exact absurd hvl hne
        | cons a l =>
          simp only [allDigits, List.isEmpty_cons, Bool.not_false, Bool.true_and,
            List.all_eq_true]
          intro x hx
          exact hdig x (hvl ▸ hx)
      rw [if_pos hall, hval]
      congr 1
      omega
  · constructor
    · intro c hc
      rw [pyStr, if_neg hneg] at hc
      exact isDig_not_space c (hdig c hc)
    · rw [pyStr, if_neg hneg, pyInt_of_digits _ hne hdig, hval]
      congr 1
      omega

lemma load_save (n : Int) :
    get_last_message_id (save_last_message_id n) = n := by
  rw [save_last_message_id, get_last_message_id,
    pyStrip_of_no_space _ (pyStr_digits n).1, (pyStr_digits n).2, Option.getD_some]

/- ===================== Helper lemmas: matcher ===================== -/

lemma reSearchWB_imp_contains (isW : Char → Bool) (pat text : List Char)
    (h : reSearchWB isW pat text = true) : strContains text pat = true := by
  rw [reSearchWB] at h
  obtain ⟨i, hi, hp⟩ := List.any_eq_true.1 h
  simp only [Bool.and_eq_true] at hp
  obtain ⟨⟨hlead, _⟩, _⟩ := hp
  rw [strContains]
  exact List.any_eq_true.2 ⟨i, hi, hlead⟩

lemma check_keywords_pred (isW : Char → Bool) (lower : List Char → List Char)
    (cl kw : List Char) :
    (reSearchWB isW (lower kw) cl || strContains cl (lower kw))
      = strContains cl (lower kw) := by
  cases hA : reSearchWB isW (lower kw) cl
  · rw [Bool.false_or]
  · rw [Bool.true_or, reSearchWB_imp_contains _ _ _ hA]

/- ===================== Helper lemmas: telegram run ===================== -/

lemma foldl_save_link : ∀ (ls : List (List Char)) (out : List (List Char)),
    ls.foldl save_link out = out ++ ls := by
  intro ls
  induction ls with
  | nil => intro out; simp
  | cons x xs ih =>
    intro out
    rw [List.foldl_cons, save_link, ih, List.append_assoc, List.singleton_append]

lemma tgStep_fst (last : Int) (acc : Int × List (List Char)) (m : Msg) :
    (tgStep last acc m).1 = if m.id ≤ last then acc.1 else max acc.1 m.id := by
  by_cases hle : m.id ≤ last
  · simp [tgStep, hle]
  · have hmax : (if acc.1 < m.id then m.id else acc.1) = max acc.1 m.id := by
      rcases le_or_lt m.id acc.1 with h | h
      · rw [if_neg (not_lt.2 h), max_eq_left h]
      · rw [if_pos h, max_eq_right h.le]
    by_cases hf : m.fails
    · simp [tgStep, hle, hf, hmax]
    · cases ht : m.text with
      | none => simp [tgStep, hle, hf, ht, hmax]
      | some t => by_cases hte : t = [] <;> simp [tgStep, hle, hf, ht, hte, hmax]

lemma tgStep_fst_le (last : Int) (acc : Int × List (List Char)) (m : Msg) :
    acc.1 ≤ (tgStep last acc m).1 := by
  rw [tgStep_fst]
  split
  · exact le_refl _
  · exact le_max_left _ _

lemma tgStep_snd (last : Int) (acc : Int × List (List Char)) (m : Msg) :
    acc.2 <+: (tgStep last acc m).2 := by
  by_cases hle : m.id ≤ last
  · simp [tgStep, hle]
  · by_cases hf : m.fails
    · simp [tgStep, hle, hf]
    · cases ht : m.text with
      | none => simp [tgStep, hle, hf, ht]
      | some t =>
        by_cases hte : t = []
        · simp [tgStep, hle, hf, ht, hte]
        · simp only [tgStep, if_neg hle, hf, Bool.false_eq_true, if_false, ht, hte,
            if_neg hte, foldl_save_link]
          exact List.prefix_append _ _

lemma foldl_tgStep_fst (last : Int) : ∀ (msgs : List Msg) (acc : Int × List (List Char)),
    last ≤ acc.1 →
    (msgs.foldl (tgStep last) acc).1 = (msgs.map Msg.id).foldl max acc.1 := by
  intro msgs
  induction msgs with
  | nil => intro acc _; rfl
  | cons m ms ih =>
    intro acc hacc
    rw [List.foldl_cons, List.map_cons, List.foldl_cons,
      ih (tgStep last acc m) (le_trans hacc (tgStep_fst_le last acc m))]
    congr 1
    rw [tgStep_fst]
    by_cases h : m.id ≤ last
    · rw [if_pos h, max_eq_left (le_trans h hacc)]
    · rw [if_neg h]

lemma foldl_tgStep_snd (last : Int) : ∀ (msgs : List Msg) (acc : Int × List (List Char)),
    acc.2 <+: (msgs.foldl (tgStep last) acc).2 := by
  intro msgs
  induction msgs with
  | nil => intro acc; exact List.prefix_rfl
  | cons m ms ih =>
    intro acc
    rw [List.foldl_cons]
    exact (tgStep_snd last acc m).trans (ih (tgStep last acc m))

lemma le_foldl_max : ∀ (l : List Int) (b : Int), b ≤ l.foldl max b := by
  intro l
  induction l with
  | nil => intro b; exact le_refl b
  | cons x xs ih => intro b; exact le_trans (le_max_left b x) (ih (max b x))

lemma process_checkpoint_cases (cf itf : Bool) (msgs : List Msg) (st : RunState) :
    (process_messages cf itf msgs st).checkpoint = st.checkpoint
      ∨ (get_last_message_id st.checkpoint
            < get_last_message_id ((process_messages cf itf msgs st).checkpoint)) := by
  rw [process_messages]
  by_cases hcf : cf
  · simp only [hcf, if_true]
    by_cases hitf : itf
    · simp only [hitf, if_true]
      left
      trivial
    · simp only [hitf, Bool.false_eq_true, if_false]
      by_cases hlt : get_last_message_id st.checkpoint
          < (msgs.foldl (tgStep (get_last_message_id st.checkpoint))
              (get_last_message_id st.checkpoint,
                if get_last_message_id st.checkpoint = 0 then [] else st.output)).1
      · rw [if_pos hlt]
        right
        rw [load_save]
        exact hlt
      · rw [if_neg hlt]
        left
        rfl
  · simp only [hcf, Bool.false_eq_true, if_false]
    left
    trivial

lemma process_mono (cf itf : Bool) (msgs : List Msg) (st : RunState) :
    get_last_message_id st.checkpoint
      ≤ get_last_message_id ((process_messages cf itf msgs st).checkpoint) := by
  rcases process_checkpoint_cases cf itf msgs st with h | h
  · rw [h]
  · exact h.le

lemma runSeq_mono : ∀ (runs : List RunInput) (st : RunState),
    get_last_message_id st.checkpoint
      ≤ get_last_message_id ((runSeq runs st).checkpoint) := by
  intro runs
  induction runs with
  | nil => intro st; exact le_refl _
  | cons r rs ih =>
    intro st
    rw [runSeq, List.foldl_cons]
    exact le_trans (process_mono r.channelFound r.iterFails r.msgs st)
      (ih (process_messages r.channelFound r.iterFails r.msgs st))

lemma process_output_extends (cf itf : Bool) (msgs : List Msg) (st : RunState)
    (h : get_last_message_id st.checkpoint ≠ 0) :
    st.output <+: (process_messages cf itf msgs st).output := by
  rw [process_messages]
  by_cases hcf : cf
  · simp only [hcf, if_true, if_neg h]
    have hext := foldl_tgStep_snd (get_last_message_id st.checkpoint) msgs
      (get_last_message_id st.checkpoint, st.output)
    by_cases hitf : itf
    · simpa [hitf] using hext
    · simp only [hitf, Bool.false_eq_true, if_false]
      split
      · exact hext
      · exact hext
  · simp only [hcf, Bool.false_eq_true, if_false]
    exact List.prefix_rfl

/- ===================== Claim theorems ===================== -/

/-- C1 (amended: "non-null" is tightened to "non-empty", which the
counterexample below forces): for every non-empty text body and every
configured keyword, if the keyword's lowercase form occurs as a substring of
the lowercased body — regardless of surrounding punctuation or word
boundaries — then `check_keywords` includes that keyword in its returned
sequence; this holds for every word-char class and lowering function. -/
theorem check_keywords_substring_complete
    (isW : Char → Bool) (lower : List Char → List Char)
    (keywords : List (List Char)) (c kw : List Char)
    (hc : c ≠ []) (hkw : kw ∈ keywords)
    (hsub : strContains (lower c) (lower kw) = true) :
    kw ∈ check_keywords isW lower keywords (some c) := by
  simp only [check_keywords, if_neg hc]
  exact List.mem_filter.2
    ⟨hkw, by rw [check_keywords_pred isW lower (lower c) kw]; exact hsub⟩

/-- Witness for C1's theorem at the spec §8 scenario: keywords bitcoin and
t.me, crypto-group body, bitcoin case-insensitively present and reported. -/
theorem check_keywords_substring_complete_witness :
    (("Join our crypto group at t.me/group123 for BITCOIN tips").toList ≠ []
        ∧ ("bitcoin").toList ∈ [("bitcoin").toList, ("t.me").toList]
        ∧ strContains
            (asciiLower (("Join our crypto group at t.me/group123 for BITCOIN tips").toList))
            (asciiLower (("bitcoin").toList)) = true)
      ∧ ("bitcoin").toList ∈ check_keywords pyWordChar asciiLower
          [("bitcoin").toList, ("t.me").toList]
          (some (("Join our crypto group at t.me/group123 for BITCOIN tips").toList)) :=
  ⟨⟨by decide, by decide, by decide⟩,
    check_keywords_substring_complete pyWordChar asciiLower _ _ _
      (by decide) (by decide) (by decide)⟩

/-- Counterexample to C1 as stated: the empty string is a non-null body and
the empty keyword's lowercase form is a substring of its lowercased form, yet
`check_keywords` returns `[]`, because `if not content` treats the empty body
exactly like `None`. -/
theorem check_keywords_empty_body_counterexample :
    strContains (asciiLower []) (asciiLower []) = true
      ∧ ([] : List Char) ∈ [([] : List Char)]
      ∧ check_keywords pyWordChar asciiLower [([] : List Char)] (some []) = [] := by
  decide

/-- C10 (amended: restricted to non-empty input text; on falsy input — None
or empty — the function returns `[]` instead): on any non-empty text,
`check_keywords` equals the plain substring-membership filter over the
keyword list, in configuration order — the word-boundary regex branch is
subsumed by the substring branch. -/
theorem check_keywords_filter_equiv
    (isW : Char → Bool) (lower : List Char → List Char)
    (keywords : List (List Char)) (c : List Char) (hc : c ≠ []) :
    check_keywords isW lower keywords (some c)
      = keywords.filter (fun kw => strContains (lower c) (lower kw)) := by
  simp only [check_keywords, if_neg hc]
  exact List.filter_congr (fun kw _ => check_keywords_pred isW lower (lower c) kw)

/-- Witness for C10's theorem on a concrete non-empty text. -/
theorem check_keywords_filter_equiv_witness :
    (("say btc now").toList ≠ [])
      ∧ check_keywords pyWordChar asciiLower [("btc").toList, ("eth").toList]
          (some (("say btc now").toList))
        = ([("btc").toList, ("eth").toList]).filter
            (fun kw => strContains (asciiLower (("say btc now").toList)) (asciiLower kw)) :=
  ⟨by decide,
    check_keywords_filter_equiv pyWordChar asciiLower
      [("btc").toList, ("eth").toList] (("say btc now").toList) (by decide)⟩

/-- Counterexample to C10 as stated ("for every input text"): on the empty
text with the empty keyword configured, the substring filter keeps the
keyword but `check_keywords` returns `[]`. -/
theorem check_keywords_filter_counterexample :
    check_keywords pyWordChar asciiLower [([] : List Char)] (some [])
      ≠ ([([] : List Char)]).filter
          (fun kw => strContains (asciiLower []) (asciiLower kw)) := by
  decide

/-- Unfolding of a telegram run whose listing succeeded (channel found, the
iterator did not raise). -/
lemma process_messages_ok (msgs : List Msg) (st : RunState) :
    process_messages true false msgs st =
      (let last_id := get_last_message_id st.checkpoint
       let r := msgs.foldl (tgStep last_id)
         (last_id, if last_id = 0 then [] else st.output)
       if last_id < r.1 then ⟨save_last_message_id r.1, r.2⟩
       else ⟨st.checkpoint, r.2⟩) := rfl

/-- C2: after a telegram run in which listing succeeds, the stored checkpoint
equals the maximum of the previously stored value and the ids of ALL iterated
candidates — those that failed or matched nothing included, not merely the
matched ones; and in the spec scenario (checkpoint absent, ids 1,2,3 listed,
message 2 raising during processing, messages 1 and 3 matching nothing) no
records are written and the stored checkpoint becomes 3. -/
theorem process_messages_checkpoint_highwater :
    (∀ (msgs : List Msg) (st : RunState),
        get_last_message_id ((process_messages true false msgs st).checkpoint)
          = (msgs.map Msg.id).foldl max (get_last_message_id st.checkpoint))
      ∧ process_messages true false
          [⟨1, some (("hello world").toList), false⟩,
            ⟨2, some (("see http://evil.onion now").toList), true⟩,
            ⟨3, some (("no links today").toList), false⟩]
          ⟨FileState.absent, []⟩
        = ⟨FileState.content ['3'], []⟩ := by
  constructor
  · intro msgs st
    rw [process_messages_ok]
    simp only []
    have hfst := foldl_tgStep_fst (get_last_message_id st.checkpoint) msgs
      (get_last_message_id st.checkpoint,
        if get_last_message_id st.checkpoint = 0 then [] else st.output) (le_refl _)
    by_cases hlt : get_last_message_id st.checkpoint
        < (msgs.foldl (tgStep (get_last_message_id st.checkpoint))
            (get_last_message_id st.checkpoint,
              if get_last_message_id st.checkpoint = 0 then [] else st.output)).1
    · rw [if_pos hlt]
      show get_last_message_id (save_last_message_id _) = _
      rw [load_save]
      exact hfst
    · rw [if_neg hlt]
      show get_last_message_id st.checkpoint = _
      rw [← hfst]
      exact le_antisymm (by rw [hfst]; exact le_foldl_max _ _) (not_lt.1 hlt)
  · decide

/-- C3: across every sequence of telegram runs the stored checkpoint value is
non-decreasing, and the checkpoint file is rewritten only when the run's new
high-water mark strictly exceeds the stored value. -/
theorem checkpoint_monotone :
    (∀ (runs : List RunInput) (st : RunState),
        get_last_message_id st.checkpoint
          ≤ get_last_message_id ((runSeq runs st).checkpoint))
      ∧ (∀ (cf itf : Bool) (msgs : List Msg) (st : RunState),
          (process_messages cf itf msgs st).checkpoint ≠ st.checkpoint →
            get_last_message_id st.checkpoint
              < get_last_message_id ((process_messages cf itf msgs st).checkpoint)) := by
  constructor
  · exact runSeq_mono
  · intro cf itf msgs st hne
    rcases process_checkpoint_cases cf itf msgs st with h | h
    · exact absurd h hne
    · exact h

/-- Witness for C3's strict-increase clause at a concrete run that rewrites
the checkpoint file (absent checkpoint, one message with id 3). -/
theorem checkpoint_monotone_witness :
    ((process_messages true false [⟨3, none, false⟩]
          ⟨FileState.absent, []⟩).checkpoint
        ≠ (⟨FileState.absent, []⟩ : RunState).checkpoint)
      ∧ get_last_message_id ((⟨FileState.absent, []⟩ : RunState).checkpoint)
          < get_last_message_id ((process_messages true false [⟨3, none, false⟩]
              ⟨FileState.absent, []⟩).checkpoint) :=
  ⟨by decide,
    checkpoint_monotone.2 true false [⟨3, none, false⟩]
      ⟨FileState.absent, []⟩ (by decide)⟩

/-- C4 amended ("the two per-record writers are append-only, but the run
level is not"): `save_result` and `save_link` only add new lines after the
existing content, and a telegram run with a nonzero stored checkpoint
preserves every existing output line; the run-level pipelines, however, do
truncate the output file (pastebin whenever candidates were listed, telegram
when the stored checkpoint is 0 — see the counterexample). -/
theorem sink_append_only :
    (∀ (out : List PasteResult) (r : Option PasteResult), out <+: save_result out r)
      ∧ (∀ (out : List (List Char)) (u : List Char), out <+: save_link out u)
      ∧ (∀ (cf itf : Bool) (msgs : List Msg) (st : RunState),
          get_last_message_id st.checkpoint ≠ 0 →
            st.output <+: (process_messages cf itf msgs st).output) := by
  refine ⟨?_, ?_, process_output_extends⟩
  · intro out r
    cases r with
    | none => exact List.prefix_rfl
    | some x => exact List.prefix_append out [x]
  · intro out u
    exact List.prefix_append out [u]

/-- Witness for C4's run-level clause: with a stored checkpoint of 5, the
existing output line survives a telegram run. -/
theorem sink_append_only_witness :
    (get_last_message_id
        ((⟨FileState.content ['5'], [("a").toList]⟩ : RunState).checkpoint) ≠ 0)
      ∧ (⟨FileState.content ['5'], [("a").toList]⟩ : RunState).output
          <+: (process_messages true false []
              ⟨FileState.content ['5'], [("a").toList]⟩).output :=
  ⟨by decide,
    sink_append_only.2.2 true false []
      ⟨FileState.content ['5'], [("a").toList]⟩ (by decide)⟩

/-- Counterexample to C4 as stated: a pastebin run with one listed candidate
(whose fetch fails, so nothing matches) truncates the output file — the
previously existing line is deleted, so the pipeline does rewrite existing
content. -/
theorem pastebin_truncates_counterexample :
    pastebin_run pyWordChar asciiLower [("btc").toList]
        [⟨("p1").toList, none⟩] [⟨("old").toList, [("btc").toList]⟩]
      = ([] : List PasteResult)
      ∧ (⟨("old").toList, [("btc").toList]⟩ : PasteResult)
          ∉ pastebin_run pyWordChar asciiLower [("btc").toList]
              [⟨("p1").toList, none⟩] [⟨("old").toList, [("btc").toList]⟩] := by
  decide

/-- C5 amended: a pastebin run whose listing failed or yielded no ids leaves
the output file untouched (pastebin keeps no checkpoint), a telegram run
whose channel lookup fails or returns a falsy channel mutates nothing, and a
telegram run whose message iteration raises never writes the checkpoint
file.  As stated the claim is false: with an absent/zero checkpoint the
telegram run truncates the output file before listing candidates, so a
listing failure can still leave the output mutated (see the
counterexample). -/
theorem listing_failure_aborts :
    (∀ (isW : Char → Bool) (lower : List Char → List Char)
        (kws : List (List Char)) (out : List PasteResult),
        pastebin_run isW lower kws [] out = out)
      ∧ (∀ (itf : Bool) (msgs : List Msg) (st : RunState),
          process_messages false itf msgs st = st)
      ∧ (∀ (msgs : List Msg) (st : RunState),
          (process_messages true true msgs st).checkpoint = st.checkpoint) :=
  ⟨fun _ _ _ _ => rfl, fun _ _ _ => rfl, fun _ _ => rfl⟩

/-- Counterexample to C5 as stated: checkpoint absent (loads 0), the channel
lookup succeeds but the message iterator raises before yielding any
candidate, i.e. listing fails; the output file, previously holding one line,
has been truncated — persistent state was mutated by a failed-listing run. -/
theorem telegram_truncates_on_listing_failure :
    process_messages true true [] ⟨FileState.absent, [("old").toList]⟩
      = ⟨FileState.absent, []⟩
      ∧ (⟨FileState.absent, [("old").toList]⟩ : RunState)
          ≠ ⟨FileState.absent, []⟩ := by
  decide

/-- C6 amended: `save_last_message_id` writes in place — truncate, then
write, with no temp-file-and-rename — so the truncated empty file IS a
reachable crash state; what survives is a weaker guarantee: every on-disk
state during the store is loaded back as either the baseline 0 or the new
identifier (degradation, not corruption-induced crash), and the final state
is exactly the stored checkpoint. -/
theorem save_checkpoint_steps_degrade :
    (∀ (n : Int) (s : FileState), s ∈ save_last_message_id_steps n →
        get_last_message_id s = 0 ∨ get_last_message_id s = n)
      ∧ (∀ n : Int,
          (save_last_message_id_steps n).getLast? = some (save_last_message_id n)) := by
  constructor
  · intro n s hs
    rw [save_last_message_id_steps, List.mem_cons, List.mem_singleton] at hs
    rcases hs with h | h
    · subst h
      left
      rfl
    · subst h
      right
      exact load_save n
  · intro n
    rfl

/-- Witness for C6's amended theorem at the truncated mid-write state of
storing 7. -/
theorem save_checkpoint_steps_degrade_witness :
    (FileState.content [] ∈ save_last_message_id_steps 7)
      ∧ (get_last_message_id (FileState.content []) = 0
          ∨ get_last_message_id (FileState.content []) = 7) :=
  ⟨by decide, save_checkpoint_steps_degrade.1 7 (FileState.content []) (by decide)⟩

/-- Counterexample to C6 as stated: the checkpoint store is not atomic — the
state left by a crash between the truncating `open(path, 'w')` and the
`write` is an empty checkpoint file, which is exactly a "truncated,
unreadable" (unparsable as an integer) checkpoint. -/
theorem save_not_atomic_counterexample :
    FileState.content [] ∈ save_last_message_id_steps 7
      ∧ pyInt (pyStrip []) = none
      ∧ get_last_message_id (FileState.content []) = 0 := by
  decide

/-- C7: checkpoint load is total — an absent file, an unreadable file, and
unparsable content all load as the baseline 0, and well-formed integer
content loads as that integer. -/
theorem load_checkpoint_total :
    get_last_message_id FileState.absent = 0
      ∧ get_last_message_id FileState.unreadable = 0
      ∧ (∀ s : List Char, pyInt (pyStrip s) = none →
          get_last_message_id (FileState.content s) = 0)
      ∧ (∀ (s : List Char) (n : Int), pyInt (pyStrip s) = some n →
          get_last_message_id (FileState.content s) = n) := by
  refine ⟨rfl, rfl, ?_, ?_⟩
  · intro s h
    rw [get_last_message_id, h]
    rfl
  · intro s n h
    rw [get_last_message_id, h]
    rfl

/-- Witness for C7's content clauses: corrupt content loads as 0, well-formed
content (here with surrounding whitespace, as `strip` allows) loads exactly. -/
theorem load_checkpoint_total_witness :
    (pyInt (pyStrip (("garbage").toList)) = none
        ∧ get_last_message_id (FileState.content (("garbage").toList)) = 0)
      ∧ (pyInt (pyStrip ((" 42").toList)) = some 42
        ∧ get_last_message_id (FileState.content ((" 42").toList)) = 42) :=
  ⟨⟨by decide, load_checkpoint_total.2.2.1 _ (by decide)⟩,
    ⟨by decide, load_checkpoint_total.2.2.2 _ 42 (by decide)⟩⟩

/-- C8: the checkpoint round-trips exactly — storing any identifier and then
loading reproduces the identical identifier. -/
theorem checkpoint_roundtrip (n : Int) :
    get_last_message_id (save_last_message_id n) = n :=
  load_save n

/-- C9: on the spec scenario text the extractor returns the single normalized
link, and the reconstruction defaults a missing protocol group to
`http://`. -/
theorem extract_onion_links_scenario :
    extract_onion_links (some (("visit http://abc123xyz.onion/page?x=1 now").toList))
      = [("http://abc123xyz.onion/page?x=1").toList]
      ∧ (∀ host path : List Char,
          buildLink ⟨[], host, path⟩ = httpLit ++ host ++ onionLit ++ path) :=
  ⟨by decide, fun _ _ => rfl⟩
